import Mathlib

set_option maxHeartbeats 1000000
set_option maxRecDepth 100000
set_option linter.unusedVariables false

/-!
Verification development for the amazon-partner-bot request pipeline.

The definitions below are a shallow embedding of the Python sources:
  * src/main.py   — URL classification, short-link expansion (cache and retry),
                    ASIN extraction, domain classification, rate limiting,
                    in-memory metrics, and the inline query handler.
  * src/metrics.py — MetricsManager with atomic file persistence.

Python's `re.search(pattern, url, re.IGNORECASE)` over the fixed pattern set of
the source is modelled by explicit leftmost scanners over `List Char`; machine
strings are Lean `String`s (the inputs are ASCII); timestamps are `Int` seconds;
the HTTP transport and the translation table are external collaborators and are
modelled as function parameters.
-/

/-- ASCII lowercase of one character, as Python str.lower acts on ASCII input. -/
def lowerC (c : Char) : Char :=
  if 'A' ≤ c ∧ c ≤ 'Z' then Char.ofNat (c.toNat + 32) else c

/-- Character class [0-9]. -/
def isDigitC (c : Char) : Bool := '0' ≤ c && c ≤ '9'

/-- Character class [A-Z]. -/
def isUpperC (c : Char) : Bool := 'A' ≤ c && c ≤ 'Z'

/-- Character class [a-z]. -/
def isLowerC (c : Char) : Bool := 'a' ≤ c && c ≤ 'z'

/-- Character class [A-Z0-9] without IGNORECASE (the spec's ProductRef invariant). -/
def isUpperAlnum (c : Char) : Bool := isUpperC c || isDigitC c

/-- Character class [A-Z0-9] under re.IGNORECASE, equivalently [A-Za-z0-9]. -/
def isAlnumCI (c : Char) : Bool := isUpperC c || isLowerC c || isDigitC c

/-- Case-insensitive literal match at the head of the input; returns the
remainder after the literal on success. -/
def matchLitCI : List Char → List Char → Option (List Char)
  | [], cs => some cs
  | _ :: _, [] => none
  | l :: ls, c :: cs => if lowerC c = lowerC l then matchLitCI ls cs else none

/-- Case-sensitive literal match at the head of the input. -/
def matchLitExact : List Char → List Char → Option (List Char)
  | [], cs => some cs
  | _ :: _, [] => none
  | l :: ls, c :: cs => if c = l then matchLitExact ls cs else none

/-- Capture of ([A-Z0-9]{10}) under IGNORECASE: exactly ten alphanumeric
characters at the head of the input. -/
def take10 (cs : List Char) : Option (List Char) :=
  if (cs.take 10).length = 10 && (cs.take 10).all isAlnumCI then some (cs.take 10) else none

/-- Attempt, at one position, a pattern of the shape lit([A-Z0-9]{10}). -/
def matchLitCapAt (lit : List Char) (cs : List Char) : Option (List Char) :=
  match matchLitCI lit cs with
  | none => none
  | some rest => take10 rest

/-- Leftmost search (re.search) for a pattern of the shape lit([A-Z0-9]{10}). -/
def searchLitCap (lit : List Char) : List Char → Option (List Char)
  | [] => matchLitCapAt lit []
  | c :: cs =>
    match matchLitCapAt lit (c :: cs) with
    | some cap => some cap
    | none => searchLitCap lit cs

/-- Character class [a-z.] under IGNORECASE. -/
def isAzDot (c : Char) : Bool := isLowerC c || isUpperC c || c = '.'

/-- Slash followed by the ten-character capture, the suffix /([A-Z0-9]{10}) of
the host patterns. -/
def slashCap (cs : List Char) : Option (List Char) :=
  match cs with
  | '/' :: r2 => take10 r2
  | _ => none

/-- Greedy backtracking tail of amazon\.[a-z.]+/([A-Z0-9]{10}) after the literal
"amazon." has been consumed: take k class characters (largest k first, at least
one), then a slash, then the ten-character capture. -/
def amazonTailK : Nat → List Char → Option (List Char)
  | 0, _ => none
  | k + 1, rest =>
    match slashCap (rest.drop (k + 1)) with
    | some cap => some cap
    | none => amazonTailK k rest

/-- Position attempt for the branch amazon\.[a-z.]+/([A-Z0-9]{10}). -/
def matchAmazonBranchAt (cs : List Char) : Option (List Char) :=
  match matchLitCI ("amazon.".data) cs with
  | none => none
  | some rest => amazonTailK (rest.takeWhile isAzDot).length rest

/-- Position attempt for the branch amzn\.com/([A-Z0-9]{10}). -/
def matchAmznComBranchAt (cs : List Char) : Option (List Char) :=
  matchLitCapAt ("amzn.com/".data) cs

/-- Position attempt for pattern 4 of extract_asin:
(?:amazon\.[a-z.]+/|amzn\.com/)([A-Z0-9]{10}), first branch tried first. -/
def matchHostCapAt (cs : List Char) : Option (List Char) :=
  match matchAmazonBranchAt cs with
  | some cap => some cap
  | none => matchAmznComBranchAt cs

/-- Leftmost search for pattern 4 of extract_asin. -/
def searchHostCap : List Char → Option (List Char)
  | [] => matchHostCapAt []
  | c :: cs =>
    match matchHostCapAt (c :: cs) with
    | some cap => some cap
    | none => searchHostCap cs

/-- Existence-only leftmost search used for the boolean patterns. -/
def searchBool (p : List Char → Bool) : List Char → Bool
  | [] => p []
  | c :: cs => p (c :: cs) || searchBool p cs

/-- One TLD alternative of amzn\.(?:eu|to|com|mx)/[a-zA-Z0-9]+ after "amzn." was
consumed: the TLD literal, a slash, then at least one alphanumeric character. -/
def amznTldAt (alt : String) (rest : List Char) : Bool :=
  match matchLitCI alt.data rest with
  | some ('/' :: c :: _) => isAlnumCI c
  | _ => false

/-- Position attempt for the short pattern amzn\.(?:eu|to|com|mx)/[a-zA-Z0-9]+,
alternatives in source order. -/
def matchShortAmznAt (cs : List Char) : Bool :=
  match matchLitCI ("amzn.".data) cs with
  | none => false
  | some rest => amznTldAt "eu" rest || amznTldAt "to" rest || amznTldAt "com" rest || amznTldAt "mx" rest

/-- Position attempt for the short pattern a\.co/[a-zA-Z0-9]+. -/
def matchACoAt (cs : List Char) : Bool :=
  match matchLitCI ("a.co/".data) cs with
  | some (c :: _) => isAlnumCI c
  | _ => false

/-- is_short of extract_asin (src/main.py): either short-link pattern occurs
anywhere in the URL, case-insensitively. -/
def isShortUrl (url : String) : Bool :=
  searchBool matchShortAmznAt url.data || searchBool matchACoAt url.data

/-- Ordered ASIN pattern list of extract_asin (src/main.py lines 187-192):
/dp/, /gp/product/, /product/, then the bare identifier after an Amazon host.
Each pattern is searched case-insensitively for its leftmost match; the first
pattern that matches anywhere in the URL wins. -/
def extractPatterns (url : String) : Option String :=
  match searchLitCap ("/dp/".data) url.data with
  | some cap => some (String.mk cap)
  | none =>
  match searchLitCap ("/gp/product/".data) url.data with
  | some cap => some (String.mk cap)
  | none =>
  match searchLitCap ("/product/".data) url.data with
  | some cap => some (String.mk cap)
  | none =>
  match searchHostCap url.data with
  | some cap => some (String.mk cap)
  | none => none

/-- Occurrence of an exact (case-sensitive) literal somewhere in the input,
Python's str `in` operator. -/
def containsSub (lit : List Char) (cs : List Char) : Bool :=
  searchBool (fun s => (matchLitExact lit s).isSome) cs

/-- Occurrence of a literal somewhere in the input, case-insensitively:
re.search of a dot-escaped literal pattern with re.IGNORECASE. -/
def containsCI (lit : List Char) (cs : List Char) : Bool :=
  searchBool (fun s => (matchLitCI lit s).isSome) cs

/-- domain_patterns of extract_domain (src/main.py lines 152-159), in source
(insertion) order; every pattern is a dot-escaped literal. -/
def domain_patterns : List (String × String) :=
  [("amazon.com", "amazon.com"), ("amazon.it", "amazon.it"), ("amazon.de", "amazon.de"),
   ("amazon.fr", "amazon.fr"), ("amazon.es", "amazon.es"), ("amazon.co.uk", "amazon.co.uk")]

/-- Loop of extract_domain: first pattern that occurs in the URL wins, default
"amazon.it". -/
def extract_domain_go : List (String × String) → String → String
  | [], _ => "amazon.it"
  | (p, d) :: rest, url => if containsCI p.data url.data then d else extract_domain_go rest url

/-- extract_domain (src/main.py lines 148-165). -/
def extract_domain (url : String) : String := extract_domain_go domain_patterns url

/-- Scheme characters of urllib.parse (letters, digits, plus, minus, dot). -/
def schemeChar (c : Char) : Bool := isLowerC c || isUpperC c || isDigitC c || c = '+' || c = '-' || c = '.'

/-- Scheme stripping of urllib.parse.urlsplit: at the first colon, if the colon
is preceded by a nonempty run of scheme characters whose first character is a
letter, everything through the colon is removed; otherwise the URL is kept. -/
def stripScheme (cs : List Char) : List Char :=
  match cs.findIdx? (fun c => c = ':') with
  | none => cs
  | some i =>
    if 0 < i
        && (match cs.take i with | c :: _ => isLowerC c || isUpperC c | [] => false)
        && (cs.take i).all schemeChar
    then cs.drop (i + 1) else cs

/-- netloc of urllib.parse.urlparse: present only after a leading "//", and runs
up to the next slash, question mark or hash. -/
def netlocOf (url : String) : List Char :=
  match stripScheme url.data with
  | '/' :: '/' :: r2 => r2.takeWhile (fun c => !(c = '/' || c = '?' || c = '#'))
  | _ => []

/-- valid_domains of is_valid_amazon_url (src/main.py lines 104-108). -/
def valid_domains : List String :=
  ["amazon.com", "amazon.it", "amazon.de", "amazon.fr", "amazon.es", "amazon.co.uk",
   "amzn.to", "amzn.eu", "a.co", "amzn.com"]

/-- is_valid_amazon_url (src/main.py lines 100-112): the lowercased netloc must
contain one of the allow-listed domains as a substring. -/
def is_valid_amazon_url (url : String) : Bool :=
  valid_domains.any (fun d => containsSub d.data ((netlocOf url).map lowerC))

/-- Dynamic value passed to track_metric: the default integer 1 for the plain
counters, or a domain string for the Counter field. -/
inductive MVal
  | nat (n : Nat)
  | str (s : String)
deriving DecidableEq, Repr

/-- bot_metrics of src/main.py lines 57-63: four integer counters and a Counter
(multiset) of domains, empty at process start. -/
structure Metrics where
  total_queries : Nat
  successful_conversions : Nat
  failed_extractions : Nat
  rate_limited : Nat
  domains : List (MVal × Nat)
deriving DecidableEq, Repr

/-- Counter increment: Counter[value] += 1 bumps an existing key in place and
creates an absent key at count 1 (appended at the end, as dict insertion). -/
def bumpCounter (l : List (MVal × Nat)) (k : MVal) : List (MVal × Nat) :=
  match l with
  | [] => [(k, 1)]
  | (k0, n) :: rest => if k0 = k then (k0, n + 1) :: rest else (k0, n) :: bumpCounter rest k

/-- Integer addition of the dynamic value: the source only ever adds the default
integer 1 to the plain counters; a string value there would raise a TypeError in
Python and is never passed, so it is modelled as a no-op. -/
def valAdd (c : Nat) : MVal → Nat
  | MVal.nat n => c + n
  | MVal.str _ => c

/-- track_metric (src/main.py lines 71-81): mutate the named field when present
('domains' is the single Counter field); unknown names are ignored; the
logging-only stanza has no state effect. -/
def track_metric (m : Metrics) (name : String) (v : MVal) : Metrics :=
  if name = "domains" then { m with domains := bumpCounter m.domains v }
  else if name = "total_queries" then { m with total_queries := valAdd m.total_queries v }
  else if name = "successful_conversions" then { m with successful_conversions := valAdd m.successful_conversions v }
  else if name = "failed_extractions" then { m with failed_extractions := valAdd m.failed_extractions v }
  else if name = "rate_limited" then { m with rate_limited := valAdd m.rate_limited v }
  else m

/-- Process-wide mutable state of src/main.py: bot_metrics, the user_queries
defaultdict (caller id to timestamp window, seconds as Int), and the lru_cache
of expand_short_url_cached (most recent first). -/
structure BotState where
  metrics : Metrics
  userQueries : List (Nat × List Int)
  cache : List (String × Option String)
deriving DecidableEq, Repr

def MAX_QUERIES_PER_MINUTE : Nat := 10

/-- defaultdict(list) read: an absent caller has the empty window. -/
def getWindow (uq : List (Nat × List Int)) (uid : Nat) : List Int :=
  (uq.lookup uid).getD []

/-- Store a caller's window (assignment to user_queries[user_id]). -/
def setWindow (uq : List (Nat × List Int)) (uid : Nat) (w : List Int) : List (Nat × List Int) :=
  (uid, w) :: uq.filter (fun p => p.1 != uid)

/-- check_rate_limit (src/main.py lines 84-97): keep only entries strictly newer
than now minus 60 seconds; deny (and count rate_limited) when ten or more
remain, otherwise append now and allow. Returns the Python boolean (true =
allowed) with the new state. -/
def check_rate_limit (st : BotState) (uid : Nat) (now : Int) : Bool × BotState :=
  let w := (getWindow st.userQueries uid).filter (fun ts => decide (now - 60 < ts))
  if MAX_QUERIES_PER_MINUTE ≤ w.length then
    (false, { st with userQueries := setWindow st.userQueries uid w,
                      metrics := track_metric st.metrics "rate_limited" (MVal.nat 1) })
  else
    (true, { st with userQueries := setWindow st.userQueries uid (w ++ [now]) })

/-- One inline answer item (InlineQueryResultArticle): id, title, description,
the message content, and the optional thumbnail URL. Text bodies come from the
translation service, an external collaborator modelled as a parameter. -/
structure ResultItem where
  id : String
  title : String
  description : String
  content : String
  thumb : Option String
deriving DecidableEq, Repr

/-- Observable external actions of one handler invocation: an outbound network
resolution for a short URL, and the inline answer with its cache_time. -/
inductive Event
  | resolveCall (url : String)
  | answer (items : List ResultItem) (cacheTime : Nat)
deriving DecidableEq, Repr

def LRU_MAXSIZE : Nat := 1000

def cacheLookup (c : List (String × Option String)) (k : String) : Option (Option String) :=
  c.lookup k

/-- expand_short_url_cached (src/main.py lines 136-145) as an explicit LRU
cache: a hit returns the stored value (also a stored None) with no network
activity and refreshes recency; a miss consults the transport (the composite
result of expand_short_url_with_retry, with every exception turned into None)
and stores the result, evicting the least recent entry beyond 1000. -/
def expand_short_url_cached (net : String → Option String) (c : List (String × Option String))
    (url : String) : Option String × List (String × Option String) × List Event :=
  match cacheLookup c url with
  | some v => (v, (url, v) :: c.filter (fun p => p.1 != url), [])
  | none =>
    let v := net url
    (v, ((url, v) :: c).take LRU_MAXSIZE, [Event.resolveCall url])

/-- extract_asin (src/main.py lines 168-202): expand a short link when the URL
matches a short pattern, falling back to the original URL when expansion yields
None (or the falsy empty string); then apply the ordered pattern list. -/
def extract_asin (net : String → Option String) (c : List (String × Option String)) (url : String) :
    Option String × List (String × Option String) × List Event :=
  if isShortUrl url then
    let r := expand_short_url_cached net c url
    let url2 := match r.1 with
      | some e => if e = "" then url else e
      | none => url
    (extractPatterns url2, r.2.1, r.2.2)
  else
    (extractPatterns url, c, [])

/-- create_affiliate_link (src/main.py lines 205-212); the partner tag is the
keyring secret, an external collaborator passed in. -/
def create_affiliate_link (partner_tag : String) (asin : String) (domain : String) : String :=
  "https://www." ++ domain ++ "/dp/" ++ asin ++ "?tag=" ++ partner_tag

/-- External collaborators of the handler: the translation service txt
(language, key, format arguments), the partner tag, and the short-URL
resolution transport. -/
structure Env where
  txt : Option String → String → List (String × String) → String
  partnerTag : String
  net : String → Option String

/-- Rate-limit answer item (src/main.py lines 231-240). -/
def rate_limit_item (env : Env) (lang : Option String) : ResultItem :=
  { id := "rate_limit",
    title := env.txt lang "bot.error.rate_limit.title" [],
    description := env.txt lang "bot.error.rate_limit.description" [("max_queries", "10")],
    content := env.txt lang "bot.error.rate_limit.input_message_content" [("max_queries", "10")],
    thumb := none }

/-- Invalid-URL answer item (src/main.py lines 246-255). -/
def url_error_item (env : Env) (lang : Option String) : ResultItem :=
  { id := "error",
    title := env.txt lang "bot.error.url_error.title" [],
    description := env.txt lang "bot.error.url_error.description" [],
    content := env.txt lang "bot.error.url_error.input_message_content" [],
    thumb := none }

/-- Failed-extraction answer item (src/main.py lines 264-273). -/
def asin_error_item (env : Env) (lang : Option String) : ResultItem :=
  { id := "error",
    title := env.txt lang "bot.error.asin_error.title" [],
    description := env.txt lang "bot.error.asin_error.description" [],
    content := env.txt lang "bot.error.asin_error.input_message_content" [],
    thumb := none }

/-- Success answer items (src/main.py lines 286-302): the labelled full link and
the link-only variant whose content is the raw affiliate link. -/
def success_items (env : Env) (lang : Option String) (asin domain link : String) : List ResultItem :=
  [{ id := asin,
     title := env.txt lang "bot.info.partner_link_generated.title" [],
     description := env.txt lang "bot.info.partner_link_generated.description" [("asin", asin), ("domain", domain)],
     content := env.txt lang "bot.info.partner_link_generated.input_message_content" [("affiliate_link", link)],
     thumb := some "https://upload.wikimedia.org/wikipedia/commons/thumb/a/a9/Amazon_logo.svg/200px-Amazon_logo.svg.png" },
   { id := asin ++ "_solo_link",
     title := env.txt lang "bot.info.only_asin_link.title" [],
     description := env.txt lang "bot.info.only_asin_link.description" [],
     content := link,
     thumb := none }]

/-- inline_query_handler (src/main.py lines 215-304): count the query, drop an
empty query, rate-limit, validate, extract, classify the domain from the
original query text, then answer. -/
def inline_query_handler (env : Env) (st : BotState) (query : String) (uid : Nat)
    (lang : Option String) (now : Int) : BotState × List Event :=
  let st1 := { st with metrics := track_metric st.metrics "total_queries" (MVal.nat 1) }
  if query = "" then (st1, [])
  else
    let rl := check_rate_limit st1 uid now
    if rl.1 = false then
      (rl.2, [Event.answer [rate_limit_item env lang] 5])
    else if is_valid_amazon_url query = false then
      (rl.2, [Event.answer [url_error_item env lang] 10])
    else
      let ex := extract_asin env.net rl.2.cache query
      let st2 := { rl.2 with cache := ex.2.1 }
      match ex.1 with
      | none =>
        ({ st2 with metrics := track_metric st2.metrics "failed_extractions" (MVal.nat 1) },
         ex.2.2 ++ [Event.answer [asin_error_item env lang] 10])
      | some asin =>
        let domain := extract_domain query
        let m3 := track_metric (track_metric st2.metrics "domains" (MVal.str domain)) "successful_conversions" (MVal.nat 1)
        let st3 := { st2 with metrics := m3 }
        let link := create_affiliate_link env.partnerTag asin domain
        (st3, ex.2.2 ++ [Event.answer (success_items env lang asin domain link) 10])

/-- Inline answers contained in an event list, with their cache times. -/
def answersOf (evs : List Event) : List (List ResultItem × Nat) :=
  evs.filterMap (fun e => match e with
    | Event.answer items ct => some (items, ct)
    | _ => none)

/-- Denial condition of the admission check, as a function of the inputs: at
least ten window entries survive the pruning. -/
def deniedCond (st : BotState) (uid : Nat) (now : Int) : Bool :=
  MAX_QUERIES_PER_MINUTE ≤ ((getWindow st.userQueries uid).filter (fun ts => decide (now - 60 < ts))).length

/-- Iterated admission checks for one caller at the given instants, returning
the last check's verdict and the final state. -/
def runRateCalls (st : BotState) (uid : Nat) : List Int → Bool × BotState
  | [] => (true, st)
  | t :: rest =>
    match rest with
    | [] => check_rate_limit st uid t
    | _ => runRateCalls (check_rate_limit st uid t).2 uid rest

/-- Modelled from the spec: the claim's admission rule ("entries older than 60
seconds before now are pruned; if the remaining count is at least 10 the check
returns Denied") prunes only entries strictly older than now minus 60 seconds,
keeping an entry aged exactly 60 seconds. Used to compare against
check_rate_limit, whose filter keeps only entries strictly newer. -/
def claim_rate_allow (uq : List (Nat × List Int)) (uid : Nat) (now : Int) : Bool :=
  let w := (getWindow uq uid).filter (fun ts => decide (now - 60 ≤ ts))
  !(MAX_QUERIES_PER_MINUTE ≤ w.length)

/-- Exception taxonomy of the requests library as used by the source. Timeout
and the HTTPError raised by raise_for_status are subclasses of
RequestException; otherError stands for any exception outside the requests
hierarchy. -/
inductive ReqError
  | timeout
  | connError
  | httpStatus (code : Nat)
  | otherError
deriving DecidableEq, Repr

/-- Membership in the requests.RequestException hierarchy. The tenacity
predicate retry_if_exception_type((requests.RequestException, requests.Timeout))
of src/main.py line 118 accepts exactly these, since Timeout is itself a
RequestException subclass. -/
def isRequestException : ReqError → Bool
  | ReqError.timeout => true
  | ReqError.connError => true
  | ReqError.httpStatus _ => true
  | ReqError.otherError => false

/-- Outcome of one HTTP GET (redirects already followed by the transport):
either a terminal response with a status code, or a raised exception. -/
inductive AttemptResult
  | resp (finalUrl : String) (status : Nat)
  | raises (e : ReqError)

/-- One execution of the body of expand_short_url_with_retry (src/main.py lines
120-133): a transport exception is logged and re-raised; raise_for_status
raises HTTPError for status 400-599; a 200 returns the final URL; any other
non-error status falls through to `return None`. -/
def attemptBody : AttemptResult → Except ReqError (Option String)
  | AttemptResult.resp url status =>
    if 400 ≤ status && status < 600 then Except.error (ReqError.httpStatus status)
    else if status = 200 then Except.ok (some url)
    else Except.ok none
  | AttemptResult.raises e => Except.error e

/-- tenacity wait_exponential(multiplier=1, min=2, max=10) evaluated after the
n-th failed attempt: clamp multiplier times 2^n into [2, 10]. -/
def waitExp (n : Nat) : Nat := max 2 (min (2 ^ n) 10)

/-- Terminal outcome of the retrying call: a returned value, retry exhaustion
(tenacity RetryError after the stop condition), or an immediately re-raised
exception that the retry predicate rejects. -/
inductive RetryOutcome
  | ok (v : Option String)
  | failedRetries (e : ReqError)
  | raised (e : ReqError)
deriving DecidableEq, Repr

/-- Trace of one logical retried request: how many attempts ran, the sleeps
performed between attempts (seconds), and the terminal outcome. -/
structure RunResult where
  attempts : Nat
  waits : List Nat
  outcome : RetryOutcome
deriving DecidableEq, Repr

/-- Retry loop of the tenacity decorator on src/main.py lines 115-119: attempt n
runs the body on the oracle's n-th answer; a success returns; an exception
outside the retry predicate is re-raised at once; otherwise, with fuel
remaining, sleep wait_exponential(n) and try again, else stop after the
configured number of attempts. -/
def retryFrom (oracle : Nat → AttemptResult) (n : Nat) (fuel : Nat) (ws : List Nat) : RunResult :=
  match attemptBody (oracle n) with
  | Except.ok v => ⟨n, ws, RetryOutcome.ok v⟩
  | Except.error e =>
    if isRequestException e = false then ⟨n, ws, RetryOutcome.raised e⟩
    else
      match fuel with
      | 0 => ⟨n, ws, RetryOutcome.failedRetries e⟩
      | fuel' + 1 => retryFrom oracle (n + 1) fuel' (ws ++ [waitExp n])

def RETRY_ATTEMPTS : Nat := 3

/-- expand_short_url_with_retry (src/main.py lines 115-133) under
stop_after_attempt(3): at most three attempts, two possible sleeps. -/
def expand_short_url_with_retry (oracle : Nat → AttemptResult) : RunResult :=
  retryFrom oracle 1 (RETRY_ATTEMPTS - 1) []

/-- Collapse of a retried run by the `except Exception: return None` of
expand_short_url_cached: any non-ok outcome becomes None. -/
def retryToOption (r : RunResult) : Option String :=
  match r.outcome with
  | RetryOutcome.ok v => v
  | RetryOutcome.failedRetries _ => none
  | RetryOutcome.raised _ => none

/-- Transport model for the cached expander: per URL, the per-attempt oracle run
through the full retry loop and collapsed to an Option. -/
def netOfOracle (oracles : String → Nat → AttemptResult) : String → Option String :=
  fun url => retryToOption (expand_short_url_with_retry (oracles url))

/-- In-memory metrics dict of MetricsManager (src/metrics.py lines 16-24):
counters, a plain string-keyed domains dict, last_updated and start_time. -/
structure MMMetrics where
  total_queries : Nat
  successful_conversions : Nat
  failed_extractions : Nat
  rate_limited : Nat
  domains : List (String × Nat)
  last_updated : Option String
  start_time : String
deriving DecidableEq, Repr

/-- Domains-dict increment of MetricsManager.track: create an absent key at 0
then add 1. -/
def bumpStrCounter (l : List (String × Nat)) (k : String) : List (String × Nat) :=
  match l with
  | [] => [(k, 1)]
  | (k0, n) :: rest => if k0 = k then (k0, n + 1) :: rest else (k0, n) :: bumpStrCounter rest k

/-- Durable storage seen by MetricsManager: the canonical metrics file and the
temporary file, each either absent or holding a full string content. -/
structure FileSys where
  canonical : Option String
  tmp : Option String
deriving DecidableEq, Repr

/-- Rendering of the domains dict inside the serialized state. -/
def renderDomains : List (String × Nat) → String
  | [] => ""
  | (k, n) :: rest => k ++ ": " ++ toString n ++ "; " ++ renderDomains rest

/-- Deterministic stand-in for json.dump(self.metrics, indent=2): the full
serialized metrics state, every field included. -/
def serializeMM (m : MMMetrics) : String :=
  "total_queries: " ++ toString m.total_queries ++
  ", successful_conversions: " ++ toString m.successful_conversions ++
  ", failed_extractions: " ++ toString m.failed_extractions ++
  ", rate_limited: " ++ toString m.rate_limited ++
  ", domains: [" ++ renderDomains m.domains ++
  "], last_updated: " ++ (match m.last_updated with | some s => s | none => "null") ++
  ", start_time: " ++ m.start_time

/-- Intermediate filesystem states of MetricsManager._save_metrics
(src/metrics.py lines 39-53): after the temporary file is written (canonical
untouched), and after the atomic replace (temporary gone, canonical holds the
full new serialization). Returns the updated in-memory state as well. -/
def save_metrics_steps (m : MMMetrics) (fs : FileSys) (nowIso : String) : MMMetrics × List FileSys :=
  let m2 := { m with last_updated := some nowIso }
  let s := serializeMM m2
  (m2, [{ fs with tmp := some s }, { canonical := some s, tmp := none }])

/-- MetricsManager._save_metrics end state: temp write followed by the atomic
replace. -/
def save_metrics (m : MMMetrics) (fs : FileSys) (nowIso : String) : MMMetrics × FileSys :=
  let m2 := { m with last_updated := some nowIso }
  (m2, { canonical := some (serializeMM m2), tmp := none })

/-- MetricsManager.track (src/metrics.py lines 55-70): mutate the named field
('domains' bumps the dict; a known counter adds the value; the never-passed
integer key for domains and string value for a counter would raise in Python
and are modelled as no-ops), then save immediately while the lock is held. -/
def MM_track (m : MMMetrics) (fs : FileSys) (name : String) (v : MVal) (nowIso : String) :
    MMMetrics × FileSys :=
  let m1 :=
    if name = "domains" then
      match v with
      | MVal.str s => { m with domains := bumpStrCounter m.domains s }
      | MVal.nat _ => m
    else if name = "total_queries" then { m with total_queries := valAdd m.total_queries v }
    else if name = "successful_conversions" then { m with successful_conversions := valAdd m.successful_conversions v }
    else if name = "failed_extractions" then { m with failed_extractions := valAdd m.failed_extractions v }
    else if name = "rate_limited" then { m with rate_limited := valAdd m.rate_limited v }
    else m
  save_metrics m1 fs nowIso

/-- Durable state threaded through the orchestrator of src/main.py: the handler
works on the in-memory bot_metrics only and contains no file write, so the
filesystem passes through unchanged. MetricsManager of src/metrics.py is never
imported by src/main.py. -/
def handlerWithFS (env : Env) (st : BotState) (fs : FileSys) (query : String) (uid : Nat)
    (lang : Option String) (now : Int) : (BotState × FileSys) × List Event :=
  let r := inline_query_handler env st query uid lang now
  ((r.1, fs), r.2)

/-- Concrete environment fixture: the translation service returns the lookup
key, the partner tag is "TAG", resolution always fails. -/
def env0 : Env :=
  { txt := fun _ k _ => k, partnerTag := "TAG", net := fun _ => none }

/-- Concrete environment fixture whose transport resolves every short URL to a
fixed amazon.de product page. -/
def env1 : Env :=
  { txt := fun _ k _ => k, partnerTag := "TAG",
    net := fun _ => some "https://www.amazon.de/dp/B000000000" }

def zeroMetrics : Metrics :=
  { total_queries := 0, successful_conversions := 0, failed_extractions := 0,
    rate_limited := 0, domains := [] }

/-- Fresh process state: all counters zero, no windows, empty cache. -/
def st0 : BotState := { metrics := zeroMetrics, userQueries := [], cache := [] }

/-- State in which caller 1 has ten window entries at instant 0. -/
def stTen : BotState :=
  { metrics := zeroMetrics, userQueries := [(1, List.replicate 10 (0 : Int))], cache := [] }

/-- Concrete MetricsManager state fixture: fresh counters with a start time. -/
def mm0 : MMMetrics :=
  { total_queries := 0, successful_conversions := 0, failed_extractions := 0,
    rate_limited := 0, domains := [], last_updated := none, start_time := "T0" }

/-! Helper lemmas about the embedded operations. -/

theorem tm_total (m : Metrics) :
    track_metric m "total_queries" (MVal.nat 1) = { m with total_queries := m.total_queries + 1 } := rfl

theorem tm_rate (m : Metrics) :
    track_metric m "rate_limited" (MVal.nat 1) = { m with rate_limited := m.rate_limited + 1 } := rfl

theorem tm_failed (m : Metrics) :
    track_metric m "failed_extractions" (MVal.nat 1) = { m with failed_extractions := m.failed_extractions + 1 } := rfl

theorem tm_succ (m : Metrics) :
    track_metric m "successful_conversions" (MVal.nat 1) = { m with successful_conversions := m.successful_conversions + 1 } := rfl

theorem tm_domains (m : Metrics) (d : String) :
    track_metric m "domains" (MVal.str d) = { m with domains := bumpCounter m.domains (MVal.str d) } := rfl

theorem crl_of_denied (st : BotState) (uid : Nat) (now : Int)
    (h : deniedCond st uid now = true) :
    check_rate_limit st uid now =
      (false, { st with
        userQueries := setWindow st.userQueries uid
          ((getWindow st.userQueries uid).filter (fun ts => decide (now - 60 < ts))),
        metrics := track_metric st.metrics "rate_limited" (MVal.nat 1) }) := by
  have h2 : MAX_QUERIES_PER_MINUTE ≤
      ((getWindow st.userQueries uid).filter (fun ts => decide (now - 60 < ts))).length := by
    unfold deniedCond at h
    exact of_decide_eq_true h
  simp only [check_rate_limit, if_pos h2]

theorem crl_of_allowed (st : BotState) (uid : Nat) (now : Int)
    (h : deniedCond st uid now = false) :
    check_rate_limit st uid now =
      (true, { st with
        userQueries := setWindow st.userQueries uid
          (((getWindow st.userQueries uid).filter (fun ts => decide (now - 60 < ts))) ++ [now]) }) := by
  have h2 : ¬ MAX_QUERIES_PER_MINUTE ≤
      ((getWindow st.userQueries uid).filter (fun ts => decide (now - 60 < ts))).length := by
    unfold deniedCond at h
    exact of_decide_eq_false h
  simp only [check_rate_limit, if_neg h2]

theorem handler_empty (env : Env) (st : BotState) (uid : Nat) (lang : Option String) (now : Int) :
    inline_query_handler env st "" uid lang now =
      ({ st with metrics := track_metric st.metrics "total_queries" (MVal.nat 1) }, []) := rfl

theorem handler_denied (env : Env) (st : BotState) (query : String) (uid : Nat)
    (lang : Option String) (now : Int) (hq : query ≠ "")
    (hd : deniedCond st uid now = true) :
    inline_query_handler env st query uid lang now =
      ({ st with
          metrics := track_metric (track_metric st.metrics "total_queries" (MVal.nat 1)) "rate_limited" (MVal.nat 1),
          userQueries := setWindow st.userQueries uid
            ((getWindow st.userQueries uid).filter (fun ts => decide (now - 60 < ts))) },
       [Event.answer [rate_limit_item env lang] 5]) := by
  have hd1 : deniedCond { st with metrics := track_metric st.metrics "total_queries" (MVal.nat 1) } uid now = true := hd
  have h1 := crl_of_denied _ uid now hd1
  simp only [inline_query_handler, if_neg hq, h1]
  simp

theorem handler_invalid (env : Env) (st : BotState) (query : String) (uid : Nat)
    (lang : Option String) (now : Int) (hq : query ≠ "")
    (hd : deniedCond st uid now = false) (hv : is_valid_amazon_url query = false) :
    inline_query_handler env st query uid lang now =
      ({ st with
          metrics := track_metric st.metrics "total_queries" (MVal.nat 1),
          userQueries := setWindow st.userQueries uid
            (((getWindow st.userQueries uid).filter (fun ts => decide (now - 60 < ts))) ++ [now]) },
       [Event.answer [url_error_item env lang] 10]) := by
  have hd1 : deniedCond { st with metrics := track_metric st.metrics "total_queries" (MVal.nat 1) } uid now = false := hd
  have h1 := crl_of_allowed _ uid now hd1
  simp only [inline_query_handler, if_neg hq, h1, hv]
  simp

theorem handler_noasin (env : Env) (st : BotState) (query : String) (uid : Nat)
    (lang : Option String) (now : Int) (hq : query ≠ "")
    (hd : deniedCond st uid now = false) (hv : is_valid_amazon_url query = true)
    (he : (extract_asin env.net st.cache query).1 = none) :
    inline_query_handler env st query uid lang now =
      ({ metrics := track_metric (track_metric st.metrics "total_queries" (MVal.nat 1)) "failed_extractions" (MVal.nat 1),
         userQueries := setWindow st.userQueries uid
           (((getWindow st.userQueries uid).filter (fun ts => decide (now - 60 < ts))) ++ [now]),
         cache := (extract_asin env.net st.cache query).2.1 },
       (extract_asin env.net st.cache query).2.2 ++ [Event.answer [asin_error_item env lang] 10]) := by
  have hd1 : deniedCond { st with metrics := track_metric st.metrics "total_queries" (MVal.nat 1) } uid now = false := hd
  have h1 := crl_of_allowed _ uid now hd1
  simp only [inline_query_handler, if_neg hq, h1, hv, he]
  simp

theorem handler_success (env : Env) (st : BotState) (query : String) (uid : Nat)
    (lang : Option String) (now : Int) (asin : String) (hq : query ≠ "")
    (hd : deniedCond st uid now = false) (hv : is_valid_amazon_url query = true)
    (he : (extract_asin env.net st.cache query).1 = some asin) :
    inline_query_handler env st query uid lang now =
      ({ metrics := track_metric (track_metric (track_metric st.metrics "total_queries" (MVal.nat 1))
           "domains" (MVal.str (extract_domain query))) "successful_conversions" (MVal.nat 1),
         userQueries := setWindow st.userQueries uid
           (((getWindow st.userQueries uid).filter (fun ts => decide (now - 60 < ts))) ++ [now]),
         cache := (extract_asin env.net st.cache query).2.1 },
       (extract_asin env.net st.cache query).2.2 ++
         [Event.answer (success_items env lang asin (extract_domain query)
           (create_affiliate_link env.partnerTag asin (extract_domain query))) 10]) := by
  have hd1 : deniedCond { st with metrics := track_metric st.metrics "total_queries" (MVal.nat 1) } uid now = false := hd
  have h1 := crl_of_allowed _ uid now hd1
  simp only [inline_query_handler, if_neg hq, h1, hv, he]
  simp

/-! Capture wellformedness: whatever any of the embedded searches return is a
ten-character alphanumeric capture group. -/

theorem take10_spec (cs cap : List Char) (h : take10 cs = some cap) :
    cap.length = 10 ∧ cap.all isAlnumCI = true := by
  unfold take10 at h
  split at h
  · next hc =>
    cases h
    obtain ⟨h1, h2⟩ := Bool.and_eq_true_iff.mp hc
    exact ⟨of_decide_eq_true h1, h2⟩
  · cases h

theorem matchLitCapAt_spec (lit cs cap : List Char) (h : matchLitCapAt lit cs = some cap) :
    cap.length = 10 ∧ cap.all isAlnumCI = true := by
  unfold matchLitCapAt at h
  cases hm : matchLitCI lit cs with
  | none => rw [hm] at h; cases h
  | some rest => rw [hm] at h; exact take10_spec rest cap h

theorem searchLitCap_spec (lit : List Char) :
    ∀ cs cap, searchLitCap lit cs = some cap → cap.length = 10 ∧ cap.all isAlnumCI = true := by
  intro cs
  induction cs with
  | nil =>
    intro cap h
    unfold searchLitCap at h
    exact matchLitCapAt_spec lit [] cap h
  | cons c cs2 ih =>
    intro cap h
    unfold searchLitCap at h
    cases hm : matchLitCapAt lit (c :: cs2) with
    | some cap2 => rw [hm] at h; cases h; exact matchLitCapAt_spec _ _ _ hm
    | none => rw [hm] at h; exact ih cap h

theorem slashCap_spec (cs cap : List Char) (h : slashCap cs = some cap) :
    cap.length = 10 ∧ cap.all isAlnumCI = true := by
  unfold slashCap at h
  split at h
  · exact take10_spec _ _ h
  · cases h

theorem amazonTailK_spec :
    ∀ k rest cap, amazonTailK k rest = some cap → cap.length = 10 ∧ cap.all isAlnumCI = true := by
  intro k
  induction k with
  | zero => intro rest cap h; cases h
  | succ k ih =>
    intro rest cap h
    unfold amazonTailK at h
    cases hm : slashCap (rest.drop (k + 1)) with
    | some cap2 => rw [hm] at h; cases h; exact slashCap_spec _ _ hm
    | none => rw [hm] at h; exact ih rest cap h

theorem matchHostCapAt_spec (cs cap : List Char) (h : matchHostCapAt cs = some cap) :
    cap.length = 10 ∧ cap.all isAlnumCI = true := by
  unfold matchHostCapAt at h
  cases hm : matchAmazonBranchAt cs with
  | some cap2 =>
    rw [hm] at h; cases h
    unfold matchAmazonBranchAt at hm
    cases hl : matchLitCI ("amazon.".data) cs with
    | none => rw [hl] at hm; cases hm
    | some rest => rw [hl] at hm; exact amazonTailK_spec _ _ _ hm
  | none =>
    rw [hm] at h
    exact matchLitCapAt_spec _ _ _ h

theorem searchHostCap_spec :
    ∀ cs cap, searchHostCap cs = some cap → cap.length = 10 ∧ cap.all isAlnumCI = true := by
  intro cs
  induction cs with
  | nil =>
    intro cap h
    unfold searchHostCap at h
    exact matchHostCapAt_spec [] cap h
  | cons c cs2 ih =>
    intro cap h
    unfold searchHostCap at h
    cases hm : matchHostCapAt (c :: cs2) with
    | some cap2 => rw [hm] at h; cases h; exact matchHostCapAt_spec _ _ hm
    | none => rw [hm] at h; exact ih cap h

theorem extractPatterns_spec (url : String) (id : String) (h : extractPatterns url = some id) :
    id.length = 10 ∧ id.data.all isAlnumCI = true := by
  unfold extractPatterns at h
  cases h1 : searchLitCap ("/dp/".data) url.data with
  | some cap => rw [h1] at h; cases h; exact searchLitCap_spec _ _ _ h1
  | none =>
  rw [h1] at h
  cases h2 : searchLitCap ("/gp/product/".data) url.data with
  | some cap => rw [h2] at h; cases h; exact searchLitCap_spec _ _ _ h2
  | none =>
  rw [h2] at h
  cases h3 : searchLitCap ("/product/".data) url.data with
  | some cap => rw [h3] at h; cases h; exact searchLitCap_spec _ _ _ h3
  | none =>
  rw [h3] at h
  cases h4 : searchHostCap url.data with
  | some cap => rw [h4] at h; cases h; exact searchHostCap_spec _ _ h4
  | none => rw [h4] at h; cases h

theorem extract_asin_not_short (net : String → Option String)
    (c : List (String × Option String)) (url : String) (hns : isShortUrl url = false) :
    extract_asin net c url = (extractPatterns url, c, []) := by
  unfold extract_asin
  rw [if_neg (by simp [hns])]

theorem extract_asin_spec (net : String → Option String) (c : List (String × Option String))
    (url : String) (id : String) (h : (extract_asin net c url).1 = some id) :
    id.length = 10 ∧ id.data.all isAlnumCI = true := by
  unfold extract_asin at h
  by_cases hs : isShortUrl url = true
  · rw [if_pos hs] at h
    exact extractPatterns_spec _ _ h
  · rw [if_neg hs] at h
    exact extractPatterns_spec _ _ h

/-- Claim-side witness predicate, at one position: the exact lowercase literal
"/dp/" followed by ten uppercase-alphanumeric characters, as the spec's
`/dp/XXXXXXXXXX` with X in [A-Z0-9]. -/
def matchDpUpperAt (cs : List Char) : Bool :=
  match matchLitExact ("/dp/".data) cs with
  | some rest => decide ((rest.take 10).length = 10) && (rest.take 10).all isUpperAlnum
  | none => false

/-- Claim-side witness predicate: the URL contains /dp/XXXXXXXXXX with X in
[A-Z0-9] somewhere. -/
def hasDpUpper (cs : List Char) : Bool := searchBool matchDpUpperAt cs

theorem matchLitExact_to_CI (lit : List Char) :
    ∀ cs r, matchLitExact lit cs = some r → matchLitCI lit cs = some r := by
  induction lit with
  | nil => intro cs r h; simpa [matchLitExact, matchLitCI] using h
  | cons l ls ih =>
    intro cs r h
    cases cs with
    | nil => cases h
    | cons c cs2 =>
      unfold matchLitExact at h
      by_cases hc : c = l
      · rw [if_pos hc] at h
        unfold matchLitCI
        rw [if_pos (by rw [hc])]
        exact ih cs2 r h
      · rw [if_neg hc] at h; cases h

theorem upper_to_CI (c : Char) (h : isUpperAlnum c = true) : isAlnumCI c = true := by
  unfold isUpperAlnum at h
  unfold isAlnumCI
  rcases Bool.or_eq_true_iff.mp h with h1 | h1 <;> simp [h1]

theorem all_upper_to_CI (l : List Char) (h : l.all isUpperAlnum = true) :
    l.all isAlnumCI = true := by
  rw [List.all_eq_true] at h ⊢
  intro c hc
  exact upper_to_CI c (h c hc)

theorem matchDpUpperAt_implies (cs : List Char) (h : matchDpUpperAt cs = true) :
    (matchLitCapAt ("/dp/".data) cs).isSome = true := by
  unfold matchDpUpperAt at h
  cases hm : matchLitExact ("/dp/".data) cs with
  | none => rw [hm] at h; cases h
  | some rest =>
    rw [hm] at h
    obtain ⟨h1, h2⟩ := Bool.and_eq_true_iff.mp h
    have hci : matchLitCapAt ("/dp/".data) cs = take10 rest := by
      unfold matchLitCapAt
      rw [matchLitExact_to_CI _ _ _ hm]
    rw [hci]
    unfold take10
    rw [if_pos (Bool.and_eq_true_iff.mpr ⟨h1, all_upper_to_CI _ h2⟩)]
    rfl

theorem searchBool_to_cap (lit : List Char) (p : List Char → Bool)
    (hpg : ∀ s, p s = true → (matchLitCapAt lit s).isSome = true) :
    ∀ cs, searchBool p cs = true → (searchLitCap lit cs).isSome = true := by
  intro cs
  induction cs with
  | nil =>
    intro h
    unfold searchBool at h
    unfold searchLitCap
    exact hpg [] h
  | cons c cs2 ih =>
    intro h
    unfold searchBool at h
    unfold searchLitCap
    cases hm : matchLitCapAt lit (c :: cs2) with
    | some cap => simp
    | none =>
      rcases Bool.or_eq_true_iff.mp h with h1 | h2
      · have := hpg _ h1
        rw [hm] at this
        cases this
      · exact ih h2

theorem hasDpUpper_finds (cs : List Char) (h : hasDpUpper cs = true) :
    (searchLitCap ("/dp/".data) cs).isSome = true :=
  searchBool_to_cap ("/dp/".data) matchDpUpperAt matchDpUpperAt_implies cs h

theorem extractPatterns_dp_first (url : String) (cap : List Char)
    (h : searchLitCap ("/dp/".data) url.data = some cap) :
    extractPatterns url = some (String.mk cap) := by
  unfold extractPatterns
  rw [h]

theorem cacheLookup_cons_self (url : String) (v : Option String)
    (rest : List (String × Option String)) :
    cacheLookup ((url, v) :: rest) url = some v := by
  simp [cacheLookup, List.lookup]

theorem expand_cached_front (net : String → Option String)
    (c : List (String × Option String)) (url : String) :
    ∃ rest, (expand_short_url_cached net c url).2.1 =
      (url, (expand_short_url_cached net c url).1) :: rest := by
  unfold expand_short_url_cached
  cases h : cacheLookup c url with
  | some v => exact ⟨_, rfl⟩
  | none =>
    refine ⟨c.take 999, ?_⟩
    have h1 : LRU_MAXSIZE = 999 + 1 := rfl
    simp only [h1, List.take_succ_cons]

theorem extract_domain_mem (url : String) :
    extract_domain url ∈ ["amazon.com", "amazon.it", "amazon.de", "amazon.fr", "amazon.es", "amazon.co.uk"] := by
  unfold extract_domain domain_patterns
  simp only [extract_domain_go]
  split_ifs <;> simp

theorem extract_domain_first_match (url : String) :
    extract_domain url =
      (((domain_patterns.find? (fun pd => containsCI pd.1.data url.data)).map Prod.snd).getD "amazon.it") := by
  unfold extract_domain domain_patterns
  simp only [extract_domain_go, List.find?]
  split_ifs with h1 h2 h3 h4 h5 h6 <;> simp [List.find?, h1, *]

theorem extract_domain_default (url : String)
    (h : ∀ pd ∈ domain_patterns, containsCI pd.1.data url.data = false) :
    extract_domain url = "amazon.it" := by
  rw [extract_domain_first_match]
  have h2 : domain_patterns.find? (fun pd => containsCI pd.1.data url.data) = none := by
    rw [List.find?_eq_none]
    intro x hx
    simp [h x hx]
  rw [h2]
  rfl

theorem expand_cached_hit (net : String → Option String) (c : List (String × Option String))
    (url : String) (v : Option String) (h : cacheLookup c url = some v) :
    expand_short_url_cached net c url = (v, (url, v) :: c.filter (fun p => p.1 != url), []) := by
  unfold expand_short_url_cached
  rw [h]

theorem expand_cached_miss (net : String → Option String) (c : List (String × Option String))
    (url : String) (h : cacheLookup c url = none) :
    expand_short_url_cached net c url =
      (net url, ((url, net url) :: c).take LRU_MAXSIZE, [Event.resolveCall url]) := by
  unfold expand_short_url_cached
  rw [h]

theorem extract_asin_events (net : String → Option String) (c : List (String × Option String))
    (url : String) : ∀ e ∈ (extract_asin net c url).2.2, ∃ u, e = Event.resolveCall u := by
  unfold extract_asin
  by_cases hs : isShortUrl url = true
  · rw [if_pos hs]
    cases h : cacheLookup c url with
    | some v => rw [expand_cached_hit net c url v h]; simp
    | none => rw [expand_cached_miss net c url h]; simp
  · rw [if_neg hs]; simp

theorem answersOf_resolve_append (evs : List Event) (items : List ResultItem) (ct : Nat)
    (h : ∀ e ∈ evs, ∃ u, e = Event.resolveCall u) :
    answersOf (evs ++ [Event.answer items ct]) = [(items, ct)] := by
  induction evs with
  | nil => simp [answersOf]
  | cons e rest ih =>
    obtain ⟨u, hu⟩ := h e (by simp)
    subst hu
    simp only [List.cons_append, answersOf, List.filterMap_cons]
    exact ih (fun e2 he2 => h e2 (by simp [he2]))

/-! Claim theorems. -/

/-- C2, counterexample: the extraction patterns are searched with re.IGNORECASE,
so extract_asin on a URL whose /dp/ identifier is lowercase returns that
lowercase identifier, which violates the claimed ProductRef invariant that
every returned identifier matches [A-Z0-9]{10} (uppercase alphanumeric). -/
theorem c2_counterexample :
    (extract_asin (fun _ => none) [] "https://www.amazon.it/dp/abcdefghij").1 = some "abcdefghij"
    ∧ "abcdefghij".data.all isUpperAlnum = false := by
  constructor <;> decide

/-- C2 (amended): every identifier extract_asin returns has length exactly 10
and matches [A-Za-z0-9]{10} — alphanumeric of either case, since the matching
is case-insensitive; for a URL that is not short-form (so no expansion occurs),
the presence of /dp/XXXXXXXXXX with X in [A-Z0-9] guarantees an identifier is
returned, and the identifier returned is the capture of the leftmost
case-insensitive /dp/ match. -/
theorem c2_thm (url : String) (net : String → Option String)
    (c : List (String × Option String)) :
    (∀ id, (extract_asin net c url).1 = some id → id.length = 10 ∧ id.data.all isAlnumCI = true)
    ∧ (isShortUrl url = false → hasDpUpper url.data = true →
        ((extract_asin net c url).1).isSome = true)
    ∧ (isShortUrl url = false → ∀ cap, searchLitCap ("/dp/".data) url.data = some cap →
        (extract_asin net c url).1 = some (String.mk cap)) := by
  refine ⟨fun id h => extract_asin_spec net c url id h, ?_, ?_⟩
  · intro hns h
    rw [extract_asin_not_short net c url hns]
    have h2 := hasDpUpper_finds url.data h
    obtain ⟨cap, hcap⟩ := Option.isSome_iff_exists.mp h2
    simp [extractPatterns_dp_first url cap hcap]
  · intro hns cap hcap
    rw [extract_asin_not_short net c url hns]
    exact extractPatterns_dp_first url cap hcap

/-- C2, witness: on https://www.amazon.it/dp/B08N5WRWNW the theorem yields the
identifier B08N5WRWNW with the ten-character alphanumeric shape. -/
theorem c2_witness :
    (extract_asin (fun _ => none) [] "https://www.amazon.it/dp/B08N5WRWNW").1 =
      some (String.mk ("B08N5WRWNW".data))
    ∧ ((extract_asin (fun _ => none) [] "https://www.amazon.it/dp/B08N5WRWNW").1).isSome = true
    ∧ "B08N5WRWNW".length = 10 ∧ "B08N5WRWNW".data.all isAlnumCI = true := by
  have h1 := (c2_thm "https://www.amazon.it/dp/B08N5WRWNW" (fun _ => none) []).2.2
    (by decide) ("B08N5WRWNW".data) (by decide)
  have h2 := (c2_thm "https://www.amazon.it/dp/B08N5WRWNW" (fun _ => none) []).2.1
    (by decide) (by decide)
  have h3 := (c2_thm "https://www.amazon.it/dp/B08N5WRWNW" (fun _ => none) []).1 _ h1
  exact ⟨h1, h2, h3⟩

/-- C3: extract_domain applies the ordered pattern list over the fixed set
{amazon.com, amazon.it, amazon.de, amazon.fr, amazon.es, amazon.co.uk},
returning the first match or the default amazon.it when none matches; and the
orchestrator classifies the domain of the success answer from the original
query text — the original is always available, so the resolved URL is never
needed — even when extraction used a resolved URL. -/
theorem c3_thm :
    (∀ url : String, extract_domain url ∈
      ["amazon.com", "amazon.it", "amazon.de", "amazon.fr", "amazon.es", "amazon.co.uk"])
    ∧ (∀ url : String, extract_domain url =
        (((domain_patterns.find? (fun pd => containsCI pd.1.data url.data)).map Prod.snd).getD "amazon.it"))
    ∧ (∀ url : String, (∀ pd ∈ domain_patterns, containsCI pd.1.data url.data = false) →
        extract_domain url = "amazon.it")
    ∧ (∀ (env : Env) (st : BotState) (query : String) (uid : Nat) (lang : Option String)
        (now : Int) (asin : String), query ≠ "" → deniedCond st uid now = false →
        is_valid_amazon_url query = true → (extract_asin env.net st.cache query).1 = some asin →
        (inline_query_handler env st query uid lang now).2 =
          (extract_asin env.net st.cache query).2.2 ++
            [Event.answer (success_items env lang asin (extract_domain query)
              (create_affiliate_link env.partnerTag asin (extract_domain query))) 10]) := by
  refine ⟨extract_domain_mem, extract_domain_first_match, extract_domain_default, ?_⟩
  intro env st query uid lang now asin hq hd hv he
  rw [handler_success env st query uid lang now asin hq hd hv he]

/-- C3, witness: a short link resolving to an amazon.de product page still gets
its affiliate domain from the original query text (default amazon.it, since
amzn.to matches no domain pattern), not from the resolved amazon.de URL. -/
theorem c3_witness :
    (inline_query_handler env1 st0 "https://amzn.to/x1" 1 none 0).2 =
      [Event.resolveCall "https://amzn.to/x1",
       Event.answer (success_items env1 none "B000000000" "amazon.it"
         "https://www.amazon.it/dp/B000000000?tag=TAG") 10] := by
  have h := c3_thm.2.2.2 env1 st0 "https://amzn.to/x1" 1 none 0 "B000000000"
    (by decide) (by decide) (by decide) (by decide)
  rw [h]
  decide

/-- C4, counterexample: an HTTPError raised by raise_for_status for a 4xx
status is a requests.RequestException, which the retry predicate of
src/main.py line 118 accepts, so a persistent HTTP 404 is retried and the run
makes three attempts — the claim says application errors are never retried,
which would have ended the run after one attempt. -/
theorem c4_counterexample :
    expand_short_url_with_retry (fun _ => AttemptResult.resp "u" 404) =
      { attempts := 3, waits := [2, 4], outcome := RetryOutcome.failedRetries (ReqError.httpStatus 404) }
    ∧ isRequestException (ReqError.httpStatus 404) = true
    ∧ (expand_short_url_with_retry (fun _ => AttemptResult.resp "u" 404)).attempts ≠ 1 := by
  refine ⟨by decide, by decide, by decide⟩

/-- C4 (amended): when every attempt fails with an exception in the
requests.RequestException hierarchy — which includes the HTTPError raised by
raise_for_status for 4xx/5xx statuses, not only network/timeout errors — the
resolver makes exactly 3 attempts and then fails, sleeping wait_exponential(n)
after the n-th failure: 2 seconds, then 4 seconds, the next bound being 8,
always clamped into [2, 10] seconds; an exception outside the hierarchy is
re-raised at once without retry. -/
theorem c4_thm :
    (∀ oracle : Nat → AttemptResult,
      (∀ n, ∃ e, attemptBody (oracle n) = Except.error e ∧ isRequestException e = true) →
      ∀ e3, attemptBody (oracle 3) = Except.error e3 →
      expand_short_url_with_retry oracle =
        { attempts := 3, waits := [waitExp 1, waitExp 2], outcome := RetryOutcome.failedRetries e3 })
    ∧ waitExp 1 = 2 ∧ waitExp 2 = 4 ∧ waitExp 3 = 8
    ∧ (∀ n, 2 ≤ waitExp n ∧ waitExp n ≤ 10)
    ∧ (∀ code, isRequestException (ReqError.httpStatus code) = true)
    ∧ (∀ oracle e, attemptBody (oracle 1) = Except.error e → isRequestException e = false →
        expand_short_url_with_retry oracle = { attempts := 1, waits := [], outcome := RetryOutcome.raised e }) := by
  refine ⟨?_, rfl, rfl, rfl, ?_, fun code => rfl, ?_⟩
  · intro oracle h e3 he3
    obtain ⟨e1, he1, hr1⟩ := h 1
    obtain ⟨e2, he2, hr2⟩ := h 2
    obtain ⟨e3b, he3b, hr3b⟩ := h 3
    rw [he3] at he3b
    cases he3b
    show retryFrom oracle 1 2 [] = _
    unfold retryFrom
    simp only [he1, hr1, Bool.true_eq_false, if_neg, ite_false]
    unfold retryFrom
    simp only [he2, hr2, Bool.true_eq_false, if_neg, ite_false]
    unfold retryFrom
    simp only [he3, hr3b, Bool.true_eq_false, if_neg, ite_false]
    simp
  · intro n
    constructor
    · exact le_max_left 2 _
    · exact max_le (by norm_num) (min_le_right _ _)
  · intro oracle e he hre
    show retryFrom oracle 1 2 [] = _
    unfold retryFrom
    simp only [he, hre]
    simp

/-- C4, witness: a transport that times out on every attempt exhausts exactly
three attempts with sleeps of 2 and 4 seconds and fails. -/
theorem c4_witness :
    expand_short_url_with_retry (fun _ => AttemptResult.raises ReqError.timeout) =
      { attempts := 3, waits := [2, 4], outcome := RetryOutcome.failedRetries ReqError.timeout } :=
  c4_thm.1 (fun _ => AttemptResult.raises ReqError.timeout)
    (fun n => ⟨ReqError.timeout, rfl, rfl⟩) ReqError.timeout rfl

/-- C5: after any resolution through expand_short_url_cached (in particular a
successful status-200 one, in which the transport yields the final URL), the
original-to-final mapping is in the cache, and resolving the same short URL
again returns the same final value with no network activity; a fresh
resolution on a cache miss stores exactly the transport's answer and performs
exactly one resolver call. -/
theorem c5_thm (net : String → Option String) (c : List (String × Option String))
    (url : String) :
    (expand_short_url_cached net ((expand_short_url_cached net c url).2.1) url).1 =
      (expand_short_url_cached net c url).1
    ∧ (expand_short_url_cached net ((expand_short_url_cached net c url).2.1) url).2.2 = []
    ∧ (cacheLookup c url = none →
        cacheLookup ((expand_short_url_cached net c url).2.1) url = some (net url)
        ∧ (expand_short_url_cached net c url).1 = net url
        ∧ (expand_short_url_cached net c url).2.2 = [Event.resolveCall url]) := by
  obtain ⟨rest, hfront⟩ := expand_cached_front net c url
  have hlook : cacheLookup ((expand_short_url_cached net c url).2.1) url =
      some ((expand_short_url_cached net c url).1) := by
    rw [hfront]
    exact cacheLookup_cons_self _ _ _
  refine ⟨?_, ?_, ?_⟩
  · rw [expand_cached_hit net _ url _ hlook]
  · rw [expand_cached_hit net _ url _ hlook]
  · intro h
    refine ⟨?_, ?_, ?_⟩
    · rw [expand_cached_miss net c url h] at hlook
      rw [expand_cached_miss net c url h]
      simpa using hlook
    · rw [expand_cached_miss net c url h]
    · rw [expand_cached_miss net c url h]

/-- C5, witness: a fresh successful resolution caches original to final and a
second call returns the same value with no network event. -/
theorem c5_witness :
    cacheLookup ((expand_short_url_cached (fun _ => some "F") [] "s").2.1) "s" = some (some "F")
    ∧ (expand_short_url_cached (fun _ => some "F") [] "s").2.2 = [Event.resolveCall "s"]
    ∧ (expand_short_url_cached (fun _ => some "F")
        ((expand_short_url_cached (fun _ => some "F") [] "s").2.1) "s").1 =
      (expand_short_url_cached (fun _ => some "F") [] "s").1
    ∧ (expand_short_url_cached (fun _ => some "F")
        ((expand_short_url_cached (fun _ => some "F") [] "s").2.1) "s").2.2 = [] := by
  have h := c5_thm (fun _ => some "F") [] "s"
  have h2 := h.2.2 (by decide)
  exact ⟨h2.1, h2.2.2, h.1, h.2.1⟩

/-- C6, counterexample: with ten window entries aged exactly 60 seconds, the
claim's rule ("entries older than 60 seconds before now are pruned", so an
entry aged exactly 60 seconds stays) keeps all ten entries and must deny, but
check_rate_limit keeps only entries strictly newer than now minus 60, prunes
all ten, and admits the call. -/
theorem c6_counterexample :
    (check_rate_limit stTen 1 60).1 = true
    ∧ claim_rate_allow stTen.userQueries 1 60 = false := by
  constructor <;> decide

/-- C6 (amended): on each admission check entries aged 60 seconds or more
(timestamp at most now minus 60) are pruned — only strictly newer entries are
kept; when at least 10 entries remain the check denies, records the pruned
window without now, and counts rate_limited; otherwise now is appended and the
check admits. Consequently the 11th call within 60 seconds for the same caller
is denied and a call made 61 seconds after the first is admitted again. -/
theorem c6_thm (st : BotState) (uid : Nat) (now : Int) :
    ((check_rate_limit st uid now).1 = true ↔
      ((getWindow st.userQueries uid).filter (fun ts => decide (now - 60 < ts))).length < MAX_QUERIES_PER_MINUTE)
    ∧ (deniedCond st uid now = true →
        check_rate_limit st uid now = (false, { st with
          userQueries := setWindow st.userQueries uid
            ((getWindow st.userQueries uid).filter (fun ts => decide (now - 60 < ts))),
          metrics := track_metric st.metrics "rate_limited" (MVal.nat 1) }))
    ∧ (deniedCond st uid now = false →
        check_rate_limit st uid now = (true, { st with
          userQueries := setWindow st.userQueries uid
            (((getWindow st.userQueries uid).filter (fun ts => decide (now - 60 < ts))) ++ [now]) }))
    ∧ (runRateCalls st0 1 (List.replicate 10 0 ++ [59])).1 = false
    ∧ (runRateCalls st0 1 (List.replicate 10 0 ++ [61])).1 = true := by
  refine ⟨?_, crl_of_denied st uid now, crl_of_allowed st uid now, by decide, by decide⟩
  by_cases h : deniedCond st uid now = true
  · have h2 : MAX_QUERIES_PER_MINUTE ≤
        ((getWindow st.userQueries uid).filter (fun ts => decide (now - 60 < ts))).length := by
      unfold deniedCond at h
      exact of_decide_eq_true h
    rw [crl_of_denied st uid now h]
    constructor
    · intro hc; cases hc
    · intro hc; exact absurd hc (Nat.not_lt.mpr h2)
  · have h3 : deniedCond st uid now = false := by
      cases hdc : deniedCond st uid now
      · rfl
      · exact absurd hdc h
    have h2 : ¬ MAX_QUERIES_PER_MINUTE ≤
        ((getWindow st.userQueries uid).filter (fun ts => decide (now - 60 < ts))).length := by
      unfold deniedCond at h3
      exact of_decide_eq_false h3
    rw [crl_of_allowed st uid now h3]
    simp [Nat.lt_of_not_le h2]

/-- C6, witness: a caller with an empty window is admitted; a caller with ten
fresh entries is denied with the pruned window stored and rate_limited
counted. -/
theorem c6_witness :
    (check_rate_limit st0 1 0).1 = true
    ∧ check_rate_limit stTen 1 0 = (false, { stTen with
        userQueries := setWindow stTen.userQueries 1
          ((getWindow stTen.userQueries 1).filter (fun ts => decide ((0 : Int) - 60 < ts))),
        metrics := track_metric stTen.metrics "rate_limited" (MVal.nat 1) }) :=
  ⟨(c6_thm st0 1 0).1.mpr (by decide), (c6_thm stTen 1 0).2.1 (by decide)⟩

/-- C7: a retried run whose outcome is not a returned value collapses to the
typed failure None in the cached resolver rather than propagating an
exception; when resolution of a short-form URL fails, extract_asin applies the
extraction patterns to the original unexpanded URL; and the handler produces
the extraction-error answer exactly on the path where that subsequent
extraction also found no identifier. -/
theorem c7_thm :
    (∀ (net : String → Option String) (c : List (String × Option String)) (url : String),
      isShortUrl url = true → (expand_short_url_cached net c url).1 = none →
      (extract_asin net c url).1 = extractPatterns url)
    ∧ (∀ (r : RunResult), (∀ v, r.outcome ≠ RetryOutcome.ok v) → retryToOption r = none)
    ∧ (∀ (env : Env) (st : BotState) (query : String) (uid : Nat) (lang : Option String)
        (now : Int), query ≠ "" → deniedCond st uid now = false →
        is_valid_amazon_url query = true → (extract_asin env.net st.cache query).1 = none →
        (inline_query_handler env st query uid lang now).2 =
          (extract_asin env.net st.cache query).2.2 ++ [Event.answer [asin_error_item env lang] 10]) := by
  refine ⟨?_, ?_, ?_⟩
  · intro net c url hs h
    unfold extract_asin
    rw [if_pos hs]
    simp only [h]
  · intro r h
    unfold retryToOption
    cases hro : r.outcome with
    | ok v => exact absurd hro (h v)
    | failedRetries e => rfl
    | raised e => rfl
  · intro env st query uid lang now hq hd hv he
    rw [handler_noasin env st query uid lang now hq hd hv he]

/-- C7, witness: with a transport that always fails, a short link with no
embedded identifier falls back to extraction on the original URL, and the
handler answers with the single extraction-error item after the resolver
call. -/
theorem c7_witness :
    (extract_asin (fun _ => none) [] "https://amzn.to/abc").1 = extractPatterns "https://amzn.to/abc"
    ∧ retryToOption ⟨3, [2, 4], RetryOutcome.failedRetries ReqError.timeout⟩ = none
    ∧ (inline_query_handler env0 st0 "https://amzn.to/abc" 1 none 0).2 =
        (extract_asin env0.net st0.cache "https://amzn.to/abc").2.2 ++
          [Event.answer [asin_error_item env0 none] 10] :=
  ⟨c7_thm.1 (fun _ => none) [] "https://amzn.to/abc" (by decide) (by decide),
   c7_thm.2.1 _ (fun v h => by cases h),
   c7_thm.2.2 env0 st0 "https://amzn.to/abc" 1 none 0 (by decide) (by decide) (by decide) (by decide)⟩

/-- C8: when the admission check denies, the handler answers with the single
rate-limit item immediately — no resolver call appears among the emitted
events, and the resolution cache is untouched, so neither URL expansion nor
pattern extraction ran for the denied caller. -/
theorem c8_thm (env : Env) (st : BotState) (query : String) (uid : Nat)
    (lang : Option String) (now : Int) (hq : query ≠ "")
    (hd : deniedCond st uid now = true) :
    (inline_query_handler env st query uid lang now).2 = [Event.answer [rate_limit_item env lang] 5]
    ∧ (inline_query_handler env st query uid lang now).1.cache = st.cache
    ∧ (∀ u, Event.resolveCall u ∉ (inline_query_handler env st query uid lang now).2) := by
  rw [handler_denied env st query uid lang now hq hd]
  refine ⟨rfl, rfl, ?_⟩
  intro u
  simp

/-- C8, witness: a caller with ten fresh window entries gets only the
rate-limit answer; a short-form query triggers no resolver call. -/
theorem c8_witness :
    (inline_query_handler env0 stTen "https://amzn.to/abc" 1 none 0).2 =
      [Event.answer [rate_limit_item env0 none] 5]
    ∧ (inline_query_handler env0 stTen "https://amzn.to/abc" 1 none 0).1.cache = stTen.cache := by
  have h := c8_thm env0 stTen "https://amzn.to/abc" 1 none 0 (by decide) (by decide)
  exact ⟨h.1, h.2.1⟩

/-- C9: every non-empty query receives exactly one answer; the rate-limit
answer carries one item with id "rate_limit", the invalid-URL and
extraction-error answers carry one item with id "error", and the success
answer carries exactly two items (the labelled link and the link-only
variant). -/
theorem c9_thm (env : Env) (st : BotState) (query : String) (uid : Nat)
    (lang : Option String) (now : Int) (hq : query ≠ "") :
    ((rate_limit_item env lang).id = "rate_limit"
      ∧ (url_error_item env lang).id = "error"
      ∧ (asin_error_item env lang).id = "error")
    ∧ (deniedCond st uid now = true →
        answersOf (inline_query_handler env st query uid lang now).2 = [([rate_limit_item env lang], 5)])
    ∧ (deniedCond st uid now = false → is_valid_amazon_url query = false →
        answersOf (inline_query_handler env st query uid lang now).2 = [([url_error_item env lang], 10)])
    ∧ (deniedCond st uid now = false → is_valid_amazon_url query = true →
        (extract_asin env.net st.cache query).1 = none →
        answersOf (inline_query_handler env st query uid lang now).2 = [([asin_error_item env lang], 10)])
    ∧ (deniedCond st uid now = false → is_valid_amazon_url query = true →
        ∀ asin, (extract_asin env.net st.cache query).1 = some asin →
        answersOf (inline_query_handler env st query uid lang now).2 =
          [(success_items env lang asin (extract_domain query)
             (create_affiliate_link env.partnerTag asin (extract_domain query)), 10)]
        ∧ (success_items env lang asin (extract_domain query)
             (create_affiliate_link env.partnerTag asin (extract_domain query))).length = 2)
    ∧ (∃ items ct, answersOf (inline_query_handler env st query uid lang now).2 = [(items, ct)]
        ∧ (items.length = 1 ∨ items.length = 2)) := by
  have hid : (rate_limit_item env lang).id = "rate_limit"
      ∧ (url_error_item env lang).id = "error"
      ∧ (asin_error_item env lang).id = "error" := ⟨rfl, rfl, rfl⟩
  have hden : deniedCond st uid now = true →
      answersOf (inline_query_handler env st query uid lang now).2 = [([rate_limit_item env lang], 5)] := by
    intro hd
    rw [handler_denied env st query uid lang now hq hd]
    rfl
  have hinv : deniedCond st uid now = false → is_valid_amazon_url query = false →
      answersOf (inline_query_handler env st query uid lang now).2 = [([url_error_item env lang], 10)] := by
    intro hd hv
    rw [handler_invalid env st query uid lang now hq hd hv]
    rfl
  have hnoa : deniedCond st uid now = false → is_valid_amazon_url query = true →
      (extract_asin env.net st.cache query).1 = none →
      answersOf (inline_query_handler env st query uid lang now).2 = [([asin_error_item env lang], 10)] := by
    intro hd hv he
    rw [handler_noasin env st query uid lang now hq hd hv he]
    exact answersOf_resolve_append _ _ _ (extract_asin_events env.net st.cache query)
  have hsucc : deniedCond st uid now = false → is_valid_amazon_url query = true →
      ∀ asin, (extract_asin env.net st.cache query).1 = some asin →
      answersOf (inline_query_handler env st query uid lang now).2 =
        [(success_items env lang asin (extract_domain query)
           (create_affiliate_link env.partnerTag asin (extract_domain query)), 10)]
      ∧ (success_items env lang asin (extract_domain query)
           (create_affiliate_link env.partnerTag asin (extract_domain query))).length = 2 := by
    intro hd hv asin he
    rw [handler_success env st query uid lang now asin hq hd hv he]
    exact ⟨answersOf_resolve_append _ _ _ (extract_asin_events env.net st.cache query), rfl⟩
  refine ⟨hid, hden, hinv, hnoa, hsucc, ?_⟩
  by_cases hd : deniedCond st uid now = true
  · exact ⟨[rate_limit_item env lang], 5, hden hd, Or.inl rfl⟩
  · have hd2 : deniedCond st uid now = false := by
      cases hdc : deniedCond st uid now
      · rfl
      · exact absurd hdc hd
    by_cases hv : is_valid_amazon_url query = true
    · cases he : (extract_asin env.net st.cache query).1 with
      | none => exact ⟨[asin_error_item env lang], 10, hnoa hd2 hv he, Or.inl rfl⟩
      | some asin =>
        exact ⟨success_items env lang asin (extract_domain query)
          (create_affiliate_link env.partnerTag asin (extract_domain query)), 10,
          (hsucc hd2 hv asin he).1, Or.inr rfl⟩
    · have hv2 : is_valid_amazon_url query = false := by
        cases hvc : is_valid_amazon_url query
        · rfl
        · exact absurd hvc hv
      exact ⟨[url_error_item env lang], 10, hinv hd2 hv2, Or.inl rfl⟩

/-- C9, witness: a valid product URL on an admitted caller yields the single
success answer with its two items. -/
theorem c9_witness :
    answersOf (inline_query_handler env0 st0 "https://www.amazon.it/dp/B08N5WRWNW" 1 none 0).2 =
      [(success_items env0 none "B08N5WRWNW" "amazon.it"
         "https://www.amazon.it/dp/B08N5WRWNW?tag=TAG", 10)] := by
  have h := (c9_thm env0 st0 "https://www.amazon.it/dp/B08N5WRWNW" 1 none 0
    (by decide)).2.2.2.2.1 (by decide) (by decide) "B08N5WRWNW" (by decide)
  rw [h.1]
  decide

/-- C10: every handler invocation increments total_queries by exactly one,
before the empty-query check (an empty query still increments it while
emitting no events at all), and each invocation increments at most one of the
other three counters, so total_queries at least the sum of
successful_conversions, failed_extractions and rate_limited is an invariant
preserved by every invocation. -/
theorem c10_thm (env : Env) (st : BotState) (query : String) (uid : Nat)
    (lang : Option String) (now : Int) :
    (inline_query_handler env st query uid lang now).1.metrics.total_queries =
      st.metrics.total_queries + 1
    ∧ (query = "" → (inline_query_handler env st query uid lang now).2 = []
        ∧ (inline_query_handler env st query uid lang now).1 =
            { st with metrics := track_metric st.metrics "total_queries" (MVal.nat 1) })
    ∧ (st.metrics.successful_conversions + st.metrics.failed_extractions + st.metrics.rate_limited
          ≤ st.metrics.total_queries →
        (inline_query_handler env st query uid lang now).1.metrics.successful_conversions
          + (inline_query_handler env st query uid lang now).1.metrics.failed_extractions
          + (inline_query_handler env st query uid lang now).1.metrics.rate_limited
          ≤ (inline_query_handler env st query uid lang now).1.metrics.total_queries) := by
  have hm : ∃ d2 s2 f2 r2, (inline_query_handler env st query uid lang now).1.metrics =
      { total_queries := st.metrics.total_queries + 1, successful_conversions := s2,
        failed_extractions := f2, rate_limited := r2, domains := d2 }
      ∧ s2 + f2 + r2 ≤ st.metrics.successful_conversions + st.metrics.failed_extractions
          + st.metrics.rate_limited + 1 := by
    by_cases hq : query = ""
    · subst hq
      exact ⟨st.metrics.domains, st.metrics.successful_conversions,
        st.metrics.failed_extractions, st.metrics.rate_limited,
        by rw [handler_empty env st uid lang now]; rfl, by omega⟩
    · by_cases hd : deniedCond st uid now = true
      · exact ⟨st.metrics.domains, st.metrics.successful_conversions,
          st.metrics.failed_extractions, st.metrics.rate_limited + 1,
          by rw [handler_denied env st query uid lang now hq hd]; rfl, by omega⟩
      · have hd2 : deniedCond st uid now = false := by
          cases hdc : deniedCond st uid now
          · rfl
          · exact absurd hdc hd
        by_cases hv : is_valid_amazon_url query = true
        · cases he : (extract_asin env.net st.cache query).1 with
          | none =>
            exact ⟨st.metrics.domains, st.metrics.successful_conversions,
              st.metrics.failed_extractions + 1, st.metrics.rate_limited,
              by rw [handler_noasin env st query uid lang now hq hd2 hv he]; rfl, by omega⟩
          | some asin =>
            exact ⟨bumpCounter st.metrics.domains (MVal.str (extract_domain query)),
              st.metrics.successful_conversions + 1,
              st.metrics.failed_extractions, st.metrics.rate_limited,
              by rw [handler_success env st query uid lang now asin hq hd2 hv he]; rfl, by omega⟩
        · have hv2 : is_valid_amazon_url query = false := by
            cases hvc : is_valid_amazon_url query
            · rfl
            · exact absurd hvc hv
          exact ⟨st.metrics.domains, st.metrics.successful_conversions,
            st.metrics.failed_extractions, st.metrics.rate_limited,
            by rw [handler_invalid env st query uid lang now hq hd2 hv2]; rfl, by omega⟩
  obtain ⟨d2, s2, f2, r2, hm, hle⟩ := hm
  refine ⟨by rw [hm], ?_, ?_⟩
  · intro he
    subst he
    rw [handler_empty env st uid lang now]
    exact ⟨rfl, rfl⟩
  · intro h
    rw [hm]
    simp only
    omega

/-- C10, witness: an empty query on the fresh state increments total_queries to
one, emits nothing, and preserves the counter invariant. -/
theorem c10_witness :
    (inline_query_handler env0 st0 "" 1 none 0).2 = []
    ∧ (inline_query_handler env0 st0 "" 1 none 0).1.metrics.total_queries = 1
    ∧ (inline_query_handler env0 st0 "" 1 none 0).1.metrics.successful_conversions
        + (inline_query_handler env0 st0 "" 1 none 0).1.metrics.failed_extractions
        + (inline_query_handler env0 st0 "" 1 none 0).1.metrics.rate_limited
        ≤ (inline_query_handler env0 st0 "" 1 none 0).1.metrics.total_queries :=
  ⟨((c10_thm env0 st0 "" 1 none 0).2.1 rfl).1,
   (c10_thm env0 st0 "" 1 none 0).1.trans rfl,
   (c10_thm env0 st0 "" 1 none 0).2.2 (by decide)⟩

/-- C1, counterexample: the orchestrator of src/main.py mutates bot_metrics via
track_metric, which performs no persistence — after a handled query the
in-memory total_queries is 1 while durable storage is untouched (here still
absent), so a mutation recorded by the pipeline is left unpersisted,
contradicting the claim that every pipeline outcome's mutation is followed by
a durable atomic write. -/
theorem c1_counterexample :
    (handlerWithFS env0 st0 { canonical := none, tmp := none } "" 1 none 0).1.1.metrics.total_queries = 1
    ∧ (handlerWithFS env0 st0 { canonical := none, tmp := none } "" 1 none 0).1.2.canonical = none := by
  constructor <;> decide

/-- C1 (amended): MetricsManager.track of src/metrics.py does follow every
mutation with the full state serialized and persisted atomically — the
temporary file is written first and then atomically renamed over the canonical
file, so every intermediate canonical content is either the old content or the
complete new serialization and the final canonical content is the full new
state; but the orchestrator of src/main.py uses the in-memory track_metric and
never invokes MetricsManager, so the pipeline's own metric mutations are not
persisted at all. -/
theorem c1_thm :
    (∀ (m : MMMetrics) (fs : FileSys) (name : String) (v : MVal) (nowIso : String),
      (MM_track m fs name v nowIso).2.canonical = some (serializeMM (MM_track m fs name v nowIso).1)
      ∧ (MM_track m fs name v nowIso).2.tmp = none)
    ∧ (∀ (m : MMMetrics) (fs : FileSys) (nowIso : String),
        ∀ fs2 ∈ (save_metrics_steps m fs nowIso).2,
          fs2.canonical = fs.canonical
          ∨ fs2.canonical = some (serializeMM { m with last_updated := some nowIso }))
    ∧ (∀ (m : MMMetrics) (fs : FileSys) (nowIso : String),
        (save_metrics_steps m fs nowIso).2.getLast? = some (save_metrics m fs nowIso).2)
    ∧ (∀ (env : Env) (st : BotState) (fs : FileSys) (query : String) (uid : Nat)
        (lang : Option String) (now : Int),
        (handlerWithFS env st fs query uid lang now).1.2 = fs
        ∧ (handlerWithFS env st fs query uid lang now).1.1 =
            (inline_query_handler env st query uid lang now).1) := by
  refine ⟨fun m fs name v nowIso => ⟨rfl, rfl⟩, ?_, fun m fs nowIso => rfl,
    fun env st fs query uid lang now => ⟨rfl, rfl⟩⟩
  intro m fs nowIso fs2 h
  simp only [save_metrics_steps, List.mem_cons, List.mem_singleton] at h
  rcases h with h | h | h
  · subst h; exact Or.inl rfl
  · subst h; exact Or.inr rfl
  · cases h

/-- C1, witness: one MetricsManager.track call on the fresh state persists the
full new serialization, and the intermediate temp-write step leaves the
canonical file at its old content. -/
theorem c1_witness :
    (MM_track mm0 { canonical := none, tmp := none } "successful_conversions" (MVal.nat 1) "T1").2.canonical =
      some (serializeMM (MM_track mm0 { canonical := none, tmp := none } "successful_conversions" (MVal.nat 1) "T1").1)
    ∧ (({ canonical := none, tmp := some (serializeMM { mm0 with last_updated := some "T1" }) } : FileSys).canonical =
          ({ canonical := none, tmp := none } : FileSys).canonical
        ∨ ({ canonical := none, tmp := some (serializeMM { mm0 with last_updated := some "T1" }) } : FileSys).canonical =
          some (serializeMM { mm0 with last_updated := some "T1" })) :=
  ⟨(c1_thm.1 mm0 { canonical := none, tmp := none } "successful_conversions" (MVal.nat 1) "T1").1,
   c1_thm.2.1 mm0 { canonical := none, tmp := none } "T1" _ (by simp [save_metrics_steps])⟩
